import Mathlib

/-!
Verification development for the senrigan surveillance recorder.

Each section embeds one part of the Go source as executable Lean
definitions (shallow embedding) and proves or refutes the corresponding
specification claims.  Machine integers are modelled as `Nat`/`Int`;
binary64 floating point, where the source uses it, is modelled exactly
by round-to-nearest-even on scaled integers; byte slices are `List Nat`;
fallible calls return an `Option` error next to the updated state.
-/

namespace Senrigan

/-- Bytes are modelled as natural numbers (the framer only compares them
against the marker constants 0xFF, 0xD8, 0xD9). -/
abbrev Byte := Nat

/-! ## JPEG framer (`V4L2Capturer.StartStream`, `cmd/server.go`)

The streaming capturer accumulates the encoder's stdout in a buffer and
repeatedly scans it: find the first SOI marker `FF D8`, find the first
EOI marker `FF D9` after the SOI, emit `data[:endIdx]` as one frame and
keep scanning the remainder; if an SOI was found but no EOI yet, the
bytes before the SOI are dropped and scanning stops until more data
arrives; if no SOI is found the buffer is kept unchanged. -/

/-- Model of Go `bytes.Index(data, []byte{x, y})`: index of the first
occurrence of the two-byte pattern `x y`, or `none`. -/
def indexOfPair : List Byte → Byte → Byte → Option Nat
  | a :: b :: rest, x, y =>
    if a = x ∧ b = y then some 0 else (indexOfPair (b :: rest) x y).map (· + 1)
  | _, _, _ => none

/-- One run of the inner scanning loop of `StartStream` over the current
buffer contents.  Returns the emitted frames (in order) and the bytes
retained in the buffer.  `fuel` only bounds the recursion (each
iteration consumes at least four bytes, so `data.length + 1` is always
enough); it mirrors no Go construct. -/
def scanFramesAux : Nat → List Byte → List (List Byte) × List Byte
  | 0, data => ([], data)
  | fuel + 1, data =>
    match indexOfPair data 255 216 with
    | none => ([], data)
    | some startIdx =>
      match indexOfPair (data.drop (startIdx + 2)) 255 217 with
      | none =>
        -- incomplete frame: drop the bytes before the SOI and wait
        if 0 < startIdx then ([], data.drop startIdx) else ([], data)
      | some endRel =>
        -- endIdx += startIdx + 2 + 2; frame := data[:endIdx]
        let endIdx := startIdx + 2 + endRel + 2
        let frame := data.take endIdx
        let rest := scanFramesAux fuel (data.drop endIdx)
        (frame :: rest.1, rest.2)

/-- The scanning loop of `StartStream` on buffer contents `data`. -/
def scanFrames (data : List Byte) : List (List Byte) × List Byte :=
  scanFramesAux (data.length + 1) data

/-- C1: the claim says bytes preceding the first SOI are discarded and
every emitted frame begins with `FF D8`.  The code emits `data[:endIdx]`
counted from the start of the buffer, so when a complete frame is
preceded by junk the junk is included in the emitted frame: on input
`00 FF D8 FF D9` the single emitted frame is `00 FF D8 FF D9`, which
does not begin with `FF D8`. -/
theorem scanFrames_keeps_junk_before_soi :
    scanFrames [0, 255, 216, 255, 217] = ([[0, 255, 216, 255, 217]], []) ∧
    ∀ f ∈ (scanFrames [0, 255, 216, 255, 217]).1, f.take 2 ≠ [255, 216] := by
  decide

/-! ## CRF computation (`VideoGenerator.qualityToCRF`, `timelapse/videogen.go`)

`crf := 28.0 - float64(quality-1)*2.5`, clamped below by 18 and above
by 28, then formatted with one decimal digit.  `quality - 1` is machine
`int` arithmetic and wraps around at the 64-bit boundary, which the
model applies before the float pipeline.  The binary64 part is exact
while the value lies strictly between the clamp bounds (all
intermediate values are halves of magnitude far below 2^53), and
outside that range both the code and the exact computation saturate at
18.0 or 28.0, so it is modelled exactly in tenths of the wrapped
operand. -/

/-- Two-complement wrap-around of Go `int` (64-bit) arithmetic:
reduce into `[-2^63, 2^63)`. -/
def wrapInt64 (x : Int) : Int :=
  (x + 9223372036854775808) % 18446744073709551616 - 9223372036854775808

/-- Model of `strconv.FormatFloat(x, 'f', 1, 64)` for a value given in
exact tenths (the reached values are non-negative exact multiples of
0.5, so formatting with one decimal digit performs no rounding). -/
def formatTenths (t : Int) : String :=
  toString (t / 10) ++ "." ++ toString (t % 10)

/-- Model of `VideoGenerator.qualityToCRF`.  The machine subtraction
`quality - 1` wraps at the int64 boundary; the binary64 value
`28.0 - float64(quality-1)*2.5` is then represented exactly in tenths
(`280 - (quality-1)*25`); the two `if` branches are the source's
sequential clamping statements. -/
def qualityToCRF (quality : Int) : String :=
  let d := wrapInt64 (quality - 1)
  let crf : Int := 280 - d * 25
  let low := if crf < 180 then 180 else crf
  let clamped := if low > 280 then 280 else low
  formatTenths clamped

lemma wrapInt64_eq (x : Int) (h1 : -9223372036854775808 ≤ x)
    (h2 : x < 9223372036854775808) : wrapInt64 x = x := by
  unfold wrapInt64
  rw [Int.emod_eq_of_lt (by omega) (by omega)]
  omega

/-- C8 counterexample: at `quality = math.MinInt64` the machine
subtraction `quality - 1` wraps to `MaxInt64`, so the code returns
"18.0" while the claim's exact clamp formula gives "28.0". -/
theorem qualityToCRF_minint_wraps :
    qualityToCRF (-9223372036854775808) = "18.0" ∧
    qualityToCRF (-9223372036854775808) ≠
      formatTenths (max 180 (min 280 (280 - (-9223372036854775808 - 1) * 25))) := by
  decide

/-- C8 amended: for every int64 quality other than `MinInt64` (where
the machine subtraction wraps), the CRF string is
`clamp(28 - 2.5*(quality-1), 18, 28)` formatted with one decimal digit
(the clamp computed in tenths is exactly ten times the claim's rational
clamp); in particular qualities 0, 1, 5, 6 give "28.0", "28.0", "18.0",
"18.0". -/
theorem qualityToCRF_spec (q : Int) (hlo : -9223372036854775808 < q)
    (hhi : q ≤ 9223372036854775807) :
    (qualityToCRF q = formatTenths (max 180 (min 280 (280 - (q - 1) * 25))) ∧
      ((max 180 (min 280 (280 - (q - 1) * 25)) : Int) : ℚ) =
        10 * max 18 (min 28 (28 - (5 / 2) * ((q : ℚ) - 1)))) ∧
    qualityToCRF 0 = "28.0" ∧ qualityToCRF 1 = "28.0" ∧
    qualityToCRF 5 = "18.0" ∧ qualityToCRF 6 = "18.0" := by
  refine ⟨⟨?_, ?_⟩, by decide, by decide, by decide, by decide⟩
  · unfold qualityToCRF
    dsimp only
    rw [wrapInt64_eq (q - 1) (by omega) (by omega)]
    congr 1
    simp only [max_def, min_def]
    split_ifs <;> omega
  · rw [Int.cast_max, Int.cast_min]
    push_cast
    rw [show ((280 : ℚ) - ((q : ℚ) - 1) * 25) = 10 * (28 - (5 / 2) * ((q : ℚ) - 1)) by ring,
      show ((280 : ℚ)) = 10 * 28 by norm_num,
      ← mul_min_of_nonneg _ _ (by norm_num : (0:ℚ) ≤ 10),
      show ((180 : ℚ)) = 10 * 18 by norm_num,
      ← mul_max_of_nonneg _ _ (by norm_num : (0:ℚ) ≤ 10)]

/-- Witness for C8 (amended) at the concrete quality 3: the string
equals the clamp formula and evaluates to "23.0". -/
theorem qualityToCRF_spec_witness :
    qualityToCRF 3 = formatTenths (max 180 (min 280 (280 - (3 - 1) * 25))) ∧
    qualityToCRF 3 = "23.0" := by
  have h := (qualityToCRF_spec 3 (by norm_num) (by norm_num)).1.1
  refine ⟨h, ?_⟩
  rw [h]
  decide

/-! ## Timelapse capture (`timelapse/capture.go`, `timelapse/types.go`)

`Capture` holds a frame buffer, the current video name, the time of the
last successful flush and the configuration.  `captureFrame` appends a
composed frame and evicts the oldest frame when the bound is exceeded;
`updateVideo` flushes the buffer through the video generator; both run
under the capture mutex, so they are modelled as sequential state
transformers.  `time.Time` is modelled as a `Nat` tick and the external
`ExtendVideo` call as an oracle function returning `ok` or an error. -/

namespace Timelapse

/-- Model of `timelapse.SourceFrame`. -/
structure SourceFrame where
  sourceID : String
  timestamp : Nat
  data : List Byte
  size : Nat
deriving DecidableEq

/-- Model of `timelapse.CombinedFrame` (the `map[string]SourceFrame` is
an association list). -/
structure CombinedFrame where
  timestamp : Nat
  sourceFrames : List (String × SourceFrame)
  composedData : List Byte
  size : Nat
deriving DecidableEq

/-- Model of `timelapse.Resolution`. -/
structure Resolution where
  width : Int
  height : Int
deriving DecidableEq

/-- Model of `timelapse.Config`. -/
structure Config where
  enabled : Bool
  captureInterval : Nat
  updateInterval : Nat
  outputFormat : String
  quality : Int
  resolution : Resolution
  maxFrameBuffer : Int
  retentionDays : Int
deriving DecidableEq

/-- Outcome of a `VideoGenerator.ExtendVideo` invocation. -/
inductive ExtendResult where
  | ok : ExtendResult
  | err (msg : String) : ExtendResult
deriving DecidableEq

/-- State of `timelapse.Capture` (the fields touched by the modelled
operations). -/
structure CaptureState where
  frameBuffer : List CombinedFrame
  outputDir : String
  currentVideo : String
  lastUpdate : Nat
  config : Config
deriving DecidableEq

/-- Model of `Capture.generateVideoFilename`; date formatting is
abstracted into the `dateStr` argument. -/
def generateVideoFilename (dateStr : String) : String :=
  "timelapse_" ++ dateStr ++ ".mp4"

/-- Model of `NewCapture`: empty buffer, empty current-video name. -/
def newCapture (outputDir : String) (config : Config) : CaptureState :=
  { frameBuffer := [], outputDir := outputDir, currentVideo := "",
    lastUpdate := 0, config := config }

/-- Model of `Capture.updateVideo`.  `extend` is the `ExtendVideo`
oracle, `formatDate` the `2006-01-02` formatter, `now` the current
tick.  Returns the new state and the returned error, if any. -/
def updateVideo (extend : String → List CombinedFrame → Config → ExtendResult)
    (formatDate : Nat → String) (now : Nat) (tc : CaptureState) :
    CaptureState × Option String :=
  if tc.frameBuffer = [] then (tc, none)
  else
    let tc1 := if tc.currentVideo = "" then
        { tc with currentVideo := generateVideoFilename (formatDate now) }
      else tc
    let videoPath := tc1.outputDir ++ "/" ++ tc1.currentVideo
    match extend videoPath tc1.frameBuffer tc1.config with
    | .err m => (tc1, some ("動画の延長に失敗: " ++ m))
    | .ok => ({ tc1 with frameBuffer := [], lastUpdate := now }, none)

/-- Model of the append-and-evict step of `Capture.captureFrame` (the
part after a successful `ComposeFrames`). -/
def captureFrame (frame : CombinedFrame) (tc : CaptureState) : CaptureState :=
  let fb := tc.frameBuffer ++ [frame]
  if (fb.length : Int) > tc.config.maxFrameBuffer then
    { tc with frameBuffer := fb.drop 1 }
  else
    { tc with frameBuffer := fb }

/-- Model of `Capture.UpdateConfig`. -/
def updateConfig (config : Config) (tc : CaptureState) : CaptureState :=
  { tc with config := config }

/-- Model of `Capture.GetConfig`. -/
def getConfig (tc : CaptureState) : Config :=
  tc.config

/-- One event of a running capture: a capture tick whose composition
either failed (`none`) or produced a frame, or an update-scheduler tick
whose `ExtendVideo` call succeeds or fails. -/
inductive CaptureEvent where
  | tick (composeResult : Option CombinedFrame) : CaptureEvent
  | flush (now : Nat) (extendOk : Bool) : CaptureEvent

/-- Effect of one event on the capture state. -/
def applyEvent (formatDate : Nat → String) (tc : CaptureState) :
    CaptureEvent → CaptureState
  | .tick none => tc
  | .tick (some f) => captureFrame f tc
  | .flush now ok =>
    (updateVideo (fun _ _ _ => if ok then .ok else .err "ffmpeg") formatDate now tc).1

/-- A run of a started capture: the interleaving (already serialised by
the capture mutex) of capture ticks and flushes. -/
def runCapture (formatDate : Nat → String) (tc : CaptureState)
    (evs : List CaptureEvent) : CaptureState :=
  evs.foldl (applyEvent formatDate) tc

/-- C3: a flush on an empty buffer is a no-op that succeeds, and every
successful flush of a non-empty buffer leaves an empty buffer and sets
`lastUpdate` to the flush time, which is no earlier than the previous
value whenever the clock is monotone. -/
theorem updateVideo_flush_spec
    (extend : String → List CombinedFrame → Config → ExtendResult)
    (formatDate : Nat → String) (now : Nat) (tc : CaptureState) :
    (tc.frameBuffer = [] → updateVideo extend formatDate now tc = (tc, none)) ∧
    (tc.frameBuffer ≠ [] → (updateVideo extend formatDate now tc).2 = none →
      (updateVideo extend formatDate now tc).1.frameBuffer = [] ∧
      (updateVideo extend formatDate now tc).1.lastUpdate = now ∧
      (tc.lastUpdate ≤ now →
        tc.lastUpdate ≤ (updateVideo extend formatDate now tc).1.lastUpdate)) := by
  unfold updateVideo
  constructor
  · intro h
    simp [h]
  · intro h hok
    simp only [if_neg h] at hok ⊢
    rcases hr : extend _ _ _ with _ | m
    · exact ⟨rfl, rfl, fun hmono => hmono⟩
    · rw [hr] at hok
      simp at hok

/-- A sample composed frame used by concrete witnesses. -/
def sampleFrame : CombinedFrame :=
  { timestamp := 3, sourceFrames := [], composedData := [255, 216, 255, 217], size := 4 }

/-- A sample configuration used by concrete witnesses. -/
def sampleConfig : Config :=
  { enabled := true, captureInterval := 2, updateInterval := 3600,
    outputFormat := "mp4", quality := 3,
    resolution := { width := 1920, height := 1080 },
    maxFrameBuffer := 1800, retentionDays := 30 }

/-- Witness for C3 at a concrete state: an empty-buffer flush is the
identity, and a successful flush of a one-frame buffer empties it. -/
theorem updateVideo_flush_spec_witness :
    (updateVideo (fun _ _ _ => .ok) (fun _ => "2025-01-02") 7
        (newCapture "videos" sampleConfig) =
      (newCapture "videos" sampleConfig, none)) ∧
    (updateVideo (fun _ _ _ => .ok) (fun _ => "2025-01-02") 7
        { newCapture "videos" sampleConfig with frameBuffer := [sampleFrame] }).1.frameBuffer = [] := by
  refine ⟨(updateVideo_flush_spec _ _ 7 _).1 (by decide), ?_⟩
  exact ((updateVideo_flush_spec (fun _ _ _ => .ok) (fun _ => "2025-01-02") 7
    { newCapture "videos" sampleConfig with frameBuffer := [sampleFrame] }).2
    (by decide) (by decide)).1

/-- C2 counterexample: when the extender fails while `currentVideo` is
still empty, the failed flush does change the current-video name (it is
set to the day's filename before the extend attempt). -/
theorem updateVideo_err_changes_currentVideo :
    (updateVideo (fun _ _ _ => .err "disk full") (fun _ => "2025-01-02") 0
        { newCapture "videos" sampleConfig with frameBuffer := [sampleFrame] }).1.currentVideo ≠
      (newCapture "videos" sampleConfig).currentVideo := by
  decide

/-- C2 amended: a flush in which the extender fails leaves the frame
buffer and `lastUpdate` unchanged; the current-video name is unchanged
whenever it was already set, and when it was empty it has been set to
the current day's filename before the extend attempt. -/
theorem updateVideo_error_spec
    (extend : String → List CombinedFrame → Config → ExtendResult)
    (formatDate : Nat → String) (now : Nat) (tc : CaptureState)
    (hfail : (updateVideo extend formatDate now tc).2 ≠ none) :
    (updateVideo extend formatDate now tc).1.frameBuffer = tc.frameBuffer ∧
    (updateVideo extend formatDate now tc).1.lastUpdate = tc.lastUpdate ∧
    (tc.currentVideo ≠ "" →
      (updateVideo extend formatDate now tc).1.currentVideo = tc.currentVideo) ∧
    (tc.currentVideo = "" →
      (updateVideo extend formatDate now tc).1.currentVideo =
        generateVideoFilename (formatDate now)) := by
  unfold updateVideo at hfail ⊢
  by_cases hb : tc.frameBuffer = []
  · simp [hb] at hfail
  · simp only [if_neg hb] at hfail ⊢
    rcases hr : extend _ _ _ with _ | m
    · rw [hr] at hfail
      simp at hfail
    · by_cases hcv : tc.currentVideo = "" <;>
        simp [hcv]

/-- Witness for C2 (amended) at a concrete failing flush. -/
theorem updateVideo_error_spec_witness :
    (updateVideo (fun _ _ _ => .err "disk full") (fun _ => "2025-01-02") 9
        { newCapture "videos" sampleConfig with frameBuffer := [sampleFrame] }).1.frameBuffer =
      [sampleFrame] := by
  have h := updateVideo_error_spec (fun _ _ _ => .err "disk full") (fun _ => "2025-01-02") 9
    { newCapture "videos" sampleConfig with frameBuffer := [sampleFrame] } (by decide)
  exact h.1

lemma updateVideo_state_shape
    (extend : String → List CombinedFrame → Config → ExtendResult)
    (formatDate : Nat → String) (now : Nat) (tc : CaptureState) :
    (updateVideo extend formatDate now tc).1.config = tc.config ∧
    ((updateVideo extend formatDate now tc).1.frameBuffer = tc.frameBuffer ∨
      (updateVideo extend formatDate now tc).1.frameBuffer = []) := by
  unfold updateVideo
  by_cases hb : tc.frameBuffer = []
  · simp [hb]
  · simp only [if_neg hb]
    rcases extend _ _ _ with _ | m
    · by_cases hcv : tc.currentVideo = "" <;> simp [hcv]
    · by_cases hcv : tc.currentVideo = "" <;> simp [hcv]

lemma applyEvent_inv (formatDate : Nat → String) (config : Config)
    (h0 : 0 ≤ config.maxFrameBuffer) (tc : CaptureState) (ev : CaptureEvent)
    (hc : tc.config = config)
    (hl : (tc.frameBuffer.length : Int) ≤ config.maxFrameBuffer) :
    (applyEvent formatDate tc ev).config = config ∧
    ((applyEvent formatDate tc ev).frameBuffer.length : Int) ≤ config.maxFrameBuffer := by
  cases ev with
  | tick r =>
    cases r with
    | none => exact ⟨hc, hl⟩
    | some f =>
      show (captureFrame f tc).config = config ∧
        ((captureFrame f tc).frameBuffer.length : Int) ≤ config.maxFrameBuffer
      unfold captureFrame
      dsimp only
      split_ifs with hof
      · refine ⟨hc, ?_⟩
        have hlen : ((tc.frameBuffer ++ [f]).drop 1).length = tc.frameBuffer.length := by
          simp
        rw [hlen]
        exact hl
      · refine ⟨hc, ?_⟩
        rw [hc] at hof
        simp only [List.length_append, List.length_cons, List.length_nil] at hof ⊢
        push_cast at hof ⊢
        omega
  | flush now ok =>
    have h := updateVideo_state_shape
      (fun _ _ _ => if ok then .ok else .err "ffmpeg") formatDate now tc
    refine ⟨h.1.trans hc, ?_⟩
    rcases h.2 with h2 | h2 <;> rw [show (applyEvent formatDate tc (.flush now ok)) =
        (updateVideo (fun _ _ _ => if ok then .ok else .err "ffmpeg") formatDate now tc).1
        from rfl, h2]
    · exact hl
    · simpa using h0

lemma runCapture_inv (formatDate : Nat → String) (config : Config)
    (h0 : 0 ≤ config.maxFrameBuffer) :
    ∀ (evs : List CaptureEvent) (tc : CaptureState), tc.config = config →
      (tc.frameBuffer.length : Int) ≤ config.maxFrameBuffer →
      (runCapture formatDate tc evs).config = config ∧
      ((runCapture formatDate tc evs).frameBuffer.length : Int) ≤ config.maxFrameBuffer := by
  intro evs
  induction evs with
  | nil => exact fun tc hc hl => ⟨hc, hl⟩
  | cons ev evs ih =>
    intro tc hc hl
    have h := applyEvent_inv formatDate config h0 tc ev hc hl
    exact ih (applyEvent formatDate tc ev) h.1 h.2

/-- C4: starting from a freshly created capture, after every sequence of
capture ticks and flushes the frame-buffer length is at most
`maxFrameBuffer`; and whenever an append would exceed the bound, the
evicted frame is the oldest one (the head of the buffer). -/
theorem captureFrame_bound_and_fifo (formatDate : Nat → String)
    (outputDir : String) (config : Config) (h0 : 0 ≤ config.maxFrameBuffer) :
    (∀ evs : List CaptureEvent,
      ((runCapture formatDate (newCapture outputDir config) evs).frameBuffer.length : Int) ≤
        config.maxFrameBuffer) ∧
    (∀ (tc : CaptureState) (f g : CombinedFrame) (rest : List CombinedFrame),
      tc.frameBuffer = g :: rest →
      ((tc.frameBuffer.length : Int) + 1 > tc.config.maxFrameBuffer →
        (captureFrame f tc).frameBuffer = rest ++ [f]) ∧
      (¬ ((tc.frameBuffer.length : Int) + 1 > tc.config.maxFrameBuffer) →
        (captureFrame f tc).frameBuffer = g :: (rest ++ [f]))) := by
  constructor
  · intro evs
    exact (runCapture_inv formatDate config h0 evs (newCapture outputDir config) rfl
      (by simpa using h0)).2
  · intro tc f g rest hfb
    unfold captureFrame
    constructor
    · intro hover
      rw [if_pos (by rw [hfb] at hover ⊢; simpa using hover)]
      rw [hfb]
      rfl
    · intro hunder
      rw [if_neg (by rw [hfb] at hunder ⊢; simpa using hunder)]
      rw [hfb]
      rfl

/-- A one-slot configuration used to exercise the FIFO eviction. -/
def tinyConfig : Config :=
  { sampleConfig with maxFrameBuffer := 1 }

/-- A second sample frame, distinct from `sampleFrame`. -/
def sampleFrame2 : CombinedFrame :=
  { timestamp := 8, sourceFrames := [], composedData := [255, 216, 0, 255, 217], size := 5 }

/-- Witness for C4 at concrete runs: a tick on a fresh capture keeps the
buffer within the bound, and an overflowing append to a one-slot buffer
evicts the previously buffered frame. -/
theorem captureFrame_bound_and_fifo_witness :
    ((runCapture (fun _ => "2025-01-02") (newCapture "videos" sampleConfig)
        [.tick (some sampleFrame), .flush 4 true, .tick (some sampleFrame2)]).frameBuffer.length : Int) ≤
      sampleConfig.maxFrameBuffer ∧
    (captureFrame sampleFrame2
        { newCapture "videos" tinyConfig with frameBuffer := [sampleFrame] }).frameBuffer =
      [sampleFrame2] := by
  constructor
  · exact (captureFrame_bound_and_fifo (fun _ => "2025-01-02") "videos" sampleConfig
      (by decide)).1 [.tick (some sampleFrame), .flush 4 true, .tick (some sampleFrame2)]
  · exact ((captureFrame_bound_and_fifo (fun _ => "2025-01-02") "videos" sampleConfig
      (by decide)).2
      { newCapture "videos" tinyConfig with frameBuffer := [sampleFrame] }
      sampleFrame2 sampleFrame [] rfl).1 (by decide)

/-- A second sample configuration, different from `sampleConfig`. -/
def sampleConfig2 : Config :=
  { sampleConfig with quality := 5 }

/-- C9 counterexample: `UpdateConfig` is available on a started capture
and changes the configuration observed via `GetConfig`. -/
theorem updateConfig_changes_getConfig :
    getConfig (updateConfig sampleConfig2 (newCapture "videos" sampleConfig)) ≠
      getConfig (newCapture "videos" sampleConfig) := by
  decide

/-- C9 amended: no operation of a running capture other than
`UpdateConfig` (capture ticks, successful or failing flushes) changes
the configuration observed via `GetConfig`. -/
theorem runCapture_config_const (formatDate : Nat → String)
    (tc : CaptureState) (evs : List CaptureEvent) :
    getConfig (runCapture formatDate tc evs) = getConfig tc := by
  induction evs generalizing tc with
  | nil => rfl
  | cons ev evs ih =>
    show getConfig (runCapture formatDate (applyEvent formatDate tc ev) evs) = _
    rw [ih (applyEvent formatDate tc ev)]
    cases ev with
    | tick r =>
      cases r with
      | none => rfl
      | some f =>
        show getConfig (captureFrame f tc) = getConfig tc
        unfold captureFrame getConfig
        dsimp only
        split_ifs <;> rfl
    | flush now ok =>
      exact (updateVideo_state_shape _ formatDate now tc).1

end Timelapse

/-! ## Video sources and the camera manager (`internal/camera`)

The registry `map[string]VideoSource` is modelled as a list with
map-like insert (replace the entry with the same id, else append) and
remove (drop entries with the id).  A source is reduced to the data the
claims observe: its info and its status. -/

namespace Camera

/-- Model of `camera.Status`. -/
inductive Status where
  | inactive : Status
  | active : Status
  | error : Status
deriving DecidableEq

/-- Model of `camera.VideoSourceType`. -/
inductive VideoSourceType where
  | usbCamera : VideoSourceType
  | x11Screen : VideoSourceType
deriving DecidableEq

/-- Model of `camera.VideoSourceInfo`. -/
structure VideoSourceInfo where
  id : String
  name : String
  sourceType : VideoSourceType
  driver : String
  description : String
  device : String
deriving DecidableEq

/-- A registered video source as the manager observes it. -/
structure ManagedSource where
  info : VideoSourceInfo
  status : Status
deriving DecidableEq

/-- Go map insert `m.videoSources[id] = source`: replace an existing
entry with the same id, otherwise append. -/
def registryInsert (reg : List ManagedSource) (s : ManagedSource) : List ManagedSource :=
  if reg.any (fun t => t.info.id = s.info.id) then
    reg.map (fun t => if t.info.id = s.info.id then s else t)
  else reg ++ [s]

/-- Go map delete `delete(m.videoSources, id)` (the registry effect of
`removeVideoSourceInternal`; stopping the source does not change the
registry). -/
def registryRemove (reg : List ManagedSource) (id : String) : List ManagedSource :=
  reg.filter (fun t => t.info.id ≠ id)

/-! ### Snapshot (`USBCameraSource.CaptureFrameForTimelapse`)

`latestFrame` is the mutex-protected latest-frame cell.  Byte slices
are modelled as a pair of an allocation address and the bytes, so that
the source's `make`+`copy` (a defensive copy into a fresh slice) is
visible as a fresh address.  Modelled from the spec: the screen
source's snapshot is not part of the given sources (no
`CaptureFrameForTimelapse` for `X11ScreenSource` or `BaseVideoSource`
appears under `src/`); design note §9 of the specification states that
it inherits the same latest-frame behaviour, so this single definition
models both source kinds. -/

/-- Errors of `CaptureFrameForTimelapse`. -/
inductive SnapshotError where
  | notActive : SnapshotError
  | noFrameYet : SnapshotError
deriving DecidableEq

/-- The source state observed by the snapshot operation. -/
structure SnapshotState where
  status : Status
  latestFrame : Option (Nat × List Byte)
  nextAddr : Nat
deriving DecidableEq

/-- The forwarder's latest-frame store: `s.latestFrame = make(...); copy`
replaces the cell with a defensive copy living at a fresh address. -/
def storeLatestFrame (frame : List Byte) (s : SnapshotState) : SnapshotState :=
  { s with latestFrame := some (s.nextAddr, frame), nextAddr := s.nextAddr + 1 }

/-- Model of `CaptureFrameForTimelapse`: `NotActive` when the status is
not active, `NoFrameYet` when no frame is stored, otherwise a copy of
the stored frame in a freshly allocated slice. -/
def captureFrameForTimelapse (s : SnapshotState) :
    Except SnapshotError (Nat × List Byte) × SnapshotState :=
  if s.status ≠ Status.active then (.error .notActive, s)
  else
    match s.latestFrame with
    | none => (.error .noFrameYet, s)
    | some (_, bytes) => (.ok (s.nextAddr, bytes), { s with nextAddr := s.nextAddr + 1 })

/-- C6: snapshot fails with `NotActive` when the source is not active,
with `NoFrameYet` when active but nothing is stored, and otherwise
returns the stored bytes in a fresh allocation (not an alias of the
stored buffer); the stored cell itself always comes from the
forwarder's defensive copy. -/
theorem captureFrameForTimelapse_spec (s : SnapshotState) :
    (s.status ≠ .active → (captureFrameForTimelapse s).1 = .error .notActive) ∧
    (s.status = .active → s.latestFrame = none →
      (captureFrameForTimelapse s).1 = .error .noFrameYet) ∧
    (∀ addr bytes, s.status = .active → s.latestFrame = some (addr, bytes) →
      addr < s.nextAddr →
      (captureFrameForTimelapse s).1 = .ok (s.nextAddr, bytes) ∧
      s.nextAddr ≠ addr ∧
      (captureFrameForTimelapse s).2.latestFrame = s.latestFrame) ∧
    (∀ frame, (storeLatestFrame frame s).latestFrame = some (s.nextAddr, frame) ∧
      s.nextAddr < (storeLatestFrame frame s).nextAddr) := by
  refine ⟨fun hs => ?_, fun hs hn => ?_, fun addr bytes hs hl hlt => ?_, fun frame => ⟨rfl, ?_⟩⟩
  · unfold captureFrameForTimelapse
    rw [if_pos hs]
  · unfold captureFrameForTimelapse
    rw [if_neg (by simp [hs]), hn]
  · unfold captureFrameForTimelapse
    rw [if_neg (by simp [hs]), hl]
    exact ⟨rfl, by omega, rfl⟩
  · exact Nat.lt_succ_self _

/-- Witness for C6 at concrete states: inactive source, active source
without a frame, and active source after one forwarder store. -/
theorem captureFrameForTimelapse_spec_witness :
    (captureFrameForTimelapse { status := .inactive, latestFrame := none, nextAddr := 0 }).1 =
      .error .notActive ∧
    (captureFrameForTimelapse { status := .active, latestFrame := none, nextAddr := 0 }).1 =
      .error .noFrameYet ∧
    (captureFrameForTimelapse
        (storeLatestFrame [255, 216, 255, 217]
          { status := .active, latestFrame := none, nextAddr := 0 })).1 =
      .ok (1, [255, 216, 255, 217]) := by
  refine ⟨(captureFrameForTimelapse_spec _).1 (by decide),
    (captureFrameForTimelapse_spec _).2.1 rfl rfl, ?_⟩
  exact ((captureFrameForTimelapse_spec _).2.2.1 0 [255, 216, 255, 217] rfl rfl
    (by decide)).1

/-! ### Manager stop (`DefaultCameraManager.Stop`) -/

/-- Model of the per-source part of `DefaultCameraManager.Stop`:
`stopErr` is the outcome of each source's `Stop(ctx)` call.  Every
source is stopped and the errors are collected; on any error the
aggregate error is returned and the registry is left as it is,
otherwise the registry is cleared. -/
def managerStop (stopErr : ManagedSource → Option String)
    (reg : List ManagedSource) : List ManagedSource × Option (List String) :=
  let stopErrors := reg.filterMap fun s =>
    (stopErr s).map fun m => "VideoSource " ++ s.info.id ++ " の停止に失敗: " ++ m
  if stopErrors.length > 0 then (reg, some stopErrors)
  else ([], none)

/-- C10: `Stop` is all-or-nothing on the registry: if any source fails
to stop, an aggregated error is returned and the registry still holds
every source; if all stops succeed, `Stop` returns nil and the source
list is empty afterwards. -/
theorem managerStop_all_or_nothing (stopErr : ManagedSource → Option String)
    (reg : List ManagedSource) :
    ((∃ s ∈ reg, stopErr s ≠ none) →
      (managerStop stopErr reg).1 = reg ∧ (managerStop stopErr reg).2 ≠ none) ∧
    ((∀ s ∈ reg, stopErr s = none) → managerStop stopErr reg = ([], none)) := by
  unfold managerStop
  constructor
  · rintro ⟨s, hs, herr⟩
    rw [if_pos]
    · exact ⟨rfl, by simp⟩
    · rcases ho : stopErr s with _ | m
      · exact absurd ho herr
      · have : ("VideoSource " ++ s.info.id ++ " の停止に失敗: " ++ m) ∈
            reg.filterMap fun s =>
              (stopErr s).map fun m => "VideoSource " ++ s.info.id ++ " の停止に失敗: " ++ m := by
          rw [List.mem_filterMap]
          exact ⟨s, hs, by rw [ho]; rfl⟩
        rcases hfm : reg.filterMap fun s =>
            (stopErr s).map fun m => "VideoSource " ++ s.info.id ++ " の停止に失敗: " ++ m with
          _ | ⟨a, l⟩
        · rw [hfm] at this
          simp at this
        · simp
  · intro hall
    rw [if_neg]
    have : (reg.filterMap fun s =>
        (stopErr s).map fun m => "VideoSource " ++ s.info.id ++ " の停止に失敗: " ++ m) = [] := by
      rw [List.filterMap_eq_nil_iff]
      intro s hs
      rw [hall s hs]
      rfl
    rw [this]
    simp

/-- A sample screen source for concrete witnesses. -/
def sampleScreenSource : ManagedSource :=
  { info := { id := "camera_1", name := "画面キャプチャ", sourceType := .x11Screen,
              driver := "x11grab", description := "X11 Screen Capture",
              device := "x11:screen" },
    status := .active }

/-- A sample USB source for concrete witnesses. -/
def sampleUSBSource : ManagedSource :=
  { info := { id := "camera_2", name := "USB Camera (/dev/video0)",
              sourceType := .usbCamera, driver := "v4l2",
              description := "USB Camera", device := "/dev/video0" },
    status := .active }

/-- Witness for C10 at concrete registries: one failing stop keeps both
sources registered; all stops succeeding clears the registry. -/
theorem managerStop_all_or_nothing_witness :
    (managerStop (fun s => if s.info.id = "camera_2" then some "busy" else none)
        [sampleScreenSource, sampleUSBSource]).1 =
      [sampleScreenSource, sampleUSBSource] ∧
    managerStop (fun _ => none) [sampleScreenSource, sampleUSBSource] = ([], none) := by
  constructor
  · exact ((managerStop_all_or_nothing
      (fun s => if s.info.id = "camera_2" then some "busy" else none)
      [sampleScreenSource, sampleUSBSource]).1
      ⟨sampleUSBSource, by decide, by decide⟩).1
  · exact (managerStop_all_or_nothing (fun _ => none)
      [sampleScreenSource, sampleUSBSource]).2 (fun s _ => rfl)

/-! ### Rediscovery reconciliation (`DefaultCameraManager.performDiscovery`) -/

/-- Model of `NewUSBCameraSourceFromConfig` followed by the automatic
start in `addVideoSourceInternal`: a USB source registered for
`device`.  A failing `Start` only changes the status field, which the
registry claims do not observe, so the status is recorded as active. -/
def mkUSBSource (id device : String) : ManagedSource :=
  { info := { id := id, name := "USB Camera (" ++ device ++ ")",
              sourceType := .usbCamera, driver := "v4l2",
              description := "USB Camera: " ++ device, device := device },
    status := .active }

/-- The add phase of `performDiscovery`: every scanned device not yet
represented by a registered source (of either kind) is registered as a
new auto-started USB source.  `CreateSource` fails exactly when the
device path is empty; the failure is logged and the device skipped.
`generateCameraID` is modelled as `freshID` applied to a counter. -/
def addMissingSources (freshID : Nat → String) :
    Nat → List ManagedSource → List String → List ManagedSource × Nat
  | ctr, reg, [] => (reg, ctr)
  | ctr, reg, d :: ds =>
    if reg.any (fun s => s.info.device = d) then
      addMissingSources freshID ctr reg ds
    else if d = "" then
      addMissingSources freshID ctr reg ds
    else
      addMissingSources freshID (ctr + 1)
        (registryInsert reg (mkUSBSource (freshID ctr) d)) ds

/-- The remove phase of `performDiscovery`: collect every registered
source that is not the screen source and whose device is no longer in
the scanned set, then delete the collected ids from the registry. -/
def removeMissingSources (devices : List String) (reg : List ManagedSource) :
    List ManagedSource :=
  let toRemove := (reg.filter fun s =>
    s.info.sourceType ≠ .x11Screen ∧ s.info.device ∉ devices).map fun s => s.info.id
  toRemove.foldl registryRemove reg

/-- Model of `DefaultCameraManager.performDiscovery`: the add phase
followed by the remove phase, returning the new registry and the id
counter. -/
def performDiscovery (freshID : Nat → String) (ctr : Nat) (devices : List String)
    (reg : List ManagedSource) : List ManagedSource × Nat :=
  let step1 := addMissingSources freshID ctr reg devices
  (removeMissingSources devices step1.1, step1.2)

lemma registryInsert_of_fresh {reg : List ManagedSource} {s : ManagedSource}
    (h : ∀ t ∈ reg, t.info.id ≠ s.info.id) : registryInsert reg s = reg ++ [s] := by
  unfold registryInsert
  rw [if_neg]
  simp only [List.any_eq_true, decide_eq_true_eq, not_exists]
  intro t ht
  exact h t ht.1 ht.2

lemma addMissingSources_cons (freshID : Nat → String) (ctr : Nat)
    (reg : List ManagedSource) (d : String) (ds : List String) :
    addMissingSources freshID ctr reg (d :: ds) =
      if reg.any (fun s => s.info.device = d) then
        addMissingSources freshID ctr reg ds
      else if d = "" then
        addMissingSources freshID ctr reg ds
      else
        addMissingSources freshID (ctr + 1)
          (registryInsert reg (mkUSBSource (freshID ctr) d)) ds := rfl

lemma addMissingSources_spec (freshID : Nat → String)
    (hinj : ∀ m n, freshID m = freshID n → m = n) :
    ∀ (ds : List String) (ctr : Nat) (reg : List ManagedSource),
      (∀ n, ctr ≤ n → ∀ s ∈ reg, s.info.id ≠ freshID n) →
      (reg.map fun s => s.info.id).Nodup →
      (∀ s ∈ reg, s ∈ (addMissingSources freshID ctr reg ds).1) ∧
      (∀ s ∈ (addMissingSources freshID ctr reg ds).1,
        s ∈ reg ∨ (s.info.sourceType = .usbCamera ∧ s.info.device ∈ ds)) ∧
      (∀ d ∈ ds, d ≠ "" →
        ∃ s ∈ (addMissingSources freshID ctr reg ds).1, s.info.device = d) ∧
      ((addMissingSources freshID ctr reg ds).1.filter
          (fun s => s.info.sourceType = .x11Screen) =
        reg.filter (fun s => s.info.sourceType = .x11Screen)) ∧
      ((addMissingSources freshID ctr reg ds).1.map fun s => s.info.id).Nodup := by
  intro ds
  induction ds with
  | nil =>
    intro ctr reg hfresh hnodup
    exact ⟨fun s hs => hs, fun s hs => Or.inl hs, by simp, rfl, hnodup⟩
  | cons d ds ih =>
    intro ctr reg hfresh hnodup
    by_cases hreg : reg.any (fun s => s.info.device = d)
    · -- the device is already represented
      have hstep : addMissingSources freshID ctr reg (d :: ds) =
          addMissingSources freshID ctr reg ds := by
        rw [addMissingSources_cons, if_pos hreg]
      obtain ⟨h1, h2, h3, h4, h5⟩ := ih ctr reg hfresh hnodup
      rw [hstep]
      refine ⟨h1, ?_, ?_, h4, h5⟩
      · intro s hs
        rcases h2 s hs with h | ⟨hu, hd⟩
        · exact Or.inl h
        · exact Or.inr ⟨hu, List.mem_cons_of_mem _ hd⟩
      · intro e he hne
        rcases List.mem_cons.1 he with rfl | he
        · rcases (by simpa [List.any_eq_true] using hreg :
              ∃ s ∈ reg, s.info.device = e) with ⟨s, hs, hdev⟩
          exact ⟨s, h1 s hs, hdev⟩
        · exact h3 e he hne
    · by_cases hd : d = ""
      · -- CreateSource fails for the empty device path; skipped
        have hstep : addMissingSources freshID ctr reg (d :: ds) =
            addMissingSources freshID ctr reg ds := by
          rw [addMissingSources_cons, if_neg hreg, if_pos hd]
        obtain ⟨h1, h2, h3, h4, h5⟩ := ih ctr reg hfresh hnodup
        rw [hstep]
        refine ⟨h1, ?_, ?_, h4, h5⟩
        · intro s hs
          rcases h2 s hs with h | ⟨hu, hdev⟩
          · exact Or.inl h
          · exact Or.inr ⟨hu, List.mem_cons_of_mem _ hdev⟩
        · intro e he hne
          rcases List.mem_cons.1 he with rfl | he
          · exact absurd hd hne
          · exact h3 e he hne
      · -- a new USB source is registered for d
        have hfr : ∀ t ∈ reg, t.info.id ≠ (mkUSBSource (freshID ctr) d).info.id :=
          fun t ht => hfresh ctr (Nat.le_refl ctr) t ht
        have hins : registryInsert reg (mkUSBSource (freshID ctr) d) =
            reg ++ [mkUSBSource (freshID ctr) d] := registryInsert_of_fresh hfr
        have hstep : addMissingSources freshID ctr reg (d :: ds) =
            addMissingSources freshID (ctr + 1)
              (reg ++ [mkUSBSource (freshID ctr) d]) ds := by
          rw [addMissingSources_cons, if_neg hreg, if_neg hd, hins]
        have hfresh2 : ∀ n, ctr + 1 ≤ n →
            ∀ s ∈ reg ++ [mkUSBSource (freshID ctr) d], s.info.id ≠ freshID n := by
          intro n hn s hs
          rcases List.mem_append.1 hs with hs | hs
          · exact hfresh n (Nat.le_of_succ_le hn) s hs
          · rw [List.mem_singleton] at hs
            subst hs
            intro hc
            have := hinj ctr n hc
            omega
        have hnodup2 : ((reg ++ [mkUSBSource (freshID ctr) d]).map
            fun s => s.info.id).Nodup := by
          rw [List.map_append, List.nodup_append]
          refine ⟨hnodup, List.nodup_singleton _, ?_⟩
          intro x hx
          rcases List.mem_map.1 hx with ⟨t, ht, rfl⟩
          simp only [List.map_cons, List.map_nil, List.mem_singleton]
          exact fun hc => hfresh ctr (Nat.le_refl ctr) t ht hc
        obtain ⟨h1, h2, h3, h4, h5⟩ := ih (ctr + 1)
          (reg ++ [mkUSBSource (freshID ctr) d]) hfresh2 hnodup2
        rw [hstep]
        refine ⟨?_, ?_, ?_, ?_, h5⟩
        · intro s hs
          exact h1 s (List.mem_append.2 (Or.inl hs))
        · intro s hs
          rcases h2 s hs with h | ⟨hu, hdev⟩
          · rcases List.mem_append.1 h with h | h
            · exact Or.inl h
            · rw [List.mem_singleton] at h
              subst h
              exact Or.inr ⟨rfl, List.mem_cons_self _ _⟩
          · exact Or.inr ⟨hu, List.mem_cons_of_mem _ hdev⟩
        · intro e he hne
          rcases List.mem_cons.1 he with rfl | he
          · refine ⟨mkUSBSource (freshID ctr) e, ?_, rfl⟩
            exact h1 _ (List.mem_append.2 (Or.inr (List.mem_singleton_self _)))
          · exact h3 e he hne
        · rw [h4, List.filter_append]
          have : [mkUSBSource (freshID ctr) d].filter
              (fun s => s.info.sourceType = .x11Screen) = [] := by
            simp [mkUSBSource]
          rw [this, List.append_nil]

lemma foldl_registryRemove (ids : List String) :
    ∀ reg : List ManagedSource,
      ids.foldl registryRemove reg = reg.filter (fun s => s.info.id ∉ ids) := by
  induction ids with
  | nil =>
    intro reg
    simp [List.foldl_nil]
  | cons a l ih =>
    intro reg
    show l.foldl registryRemove (registryRemove reg a) = _
    rw [ih]
    unfold registryRemove
    rw [List.filter_filter]
    apply List.filter_congr
    intro s _
    by_cases h1 : s.info.id = a <;> by_cases h2 : s.info.id ∈ l <;>
      simp [h1, h2]

lemma removeMissingSources_eq_filter (devices : List String)
    (reg : List ManagedSource) (hnodup : (reg.map fun s => s.info.id).Nodup) :
    removeMissingSources devices reg =
      reg.filter (fun s => s.info.sourceType = .x11Screen ∨ s.info.device ∈ devices) := by
  unfold removeMissingSources
  rw [foldl_registryRemove]
  apply List.filter_congr
  intro s hs
  have hinj := List.inj_on_of_nodup_map hnodup
  have hiff : (s.info.id ∈ (reg.filter fun t =>
      t.info.sourceType ≠ .x11Screen ∧ t.info.device ∉ devices).map fun t => t.info.id) ↔
      (s.info.sourceType ≠ .x11Screen ∧ s.info.device ∉ devices) := by
    constructor
    · intro h
      rcases List.mem_map.1 h with ⟨t, htmem, hid⟩
      rcases List.mem_filter.1 htmem with ⟨htreg, htbad⟩
      have ht : t = s := hinj htreg hs hid
      subst ht
      simpa using htbad
    · intro hbad
      exact List.mem_map.2 ⟨s, List.mem_filter.2 ⟨hs, by simp [hbad.1, hbad.2]⟩, rfl⟩
  rw [decide_eq_decide, hiff]
  tauto

/-- C5: after a reconciliation pass over a stable device set `D` —
given fresh distinct ids, an id-unique registry, non-empty device
paths, and no screen source occupying a path of `D` — the device paths
of the USB sources in the registry are exactly `D`, and the screen
sources are exactly those registered before (a screen source is never
removed by reconciliation). -/
theorem performDiscovery_reconciles (freshID : Nat → String) (ctr : Nat)
    (devices : List String) (reg : List ManagedSource)
    (hinj : ∀ m n, freshID m = freshID n → m = n)
    (hfresh : ∀ n, ctr ≤ n → ∀ s ∈ reg, s.info.id ≠ freshID n)
    (hnodup : (reg.map fun s => s.info.id).Nodup)
    (hdev : ∀ d ∈ devices, d ≠ "")
    (hscreen : ∀ s ∈ reg, s.info.sourceType = .x11Screen → s.info.device ∉ devices) :
    (∀ d, (∃ s ∈ (performDiscovery freshID ctr devices reg).1,
        s.info.sourceType = .usbCamera ∧ s.info.device = d) ↔ d ∈ devices) ∧
    ((performDiscovery freshID ctr devices reg).1.filter
        (fun s => s.info.sourceType = .x11Screen) =
      reg.filter (fun s => s.info.sourceType = .x11Screen)) := by
  obtain ⟨h1, h2, h3, h4, h5⟩ :=
    addMissingSources_spec freshID hinj devices ctr reg hfresh hnodup
  have hpd : (performDiscovery freshID ctr devices reg).1 =
      removeMissingSources devices (addMissingSources freshID ctr reg devices).1 := rfl
  rw [hpd, removeMissingSources_eq_filter devices _ h5]
  constructor
  · intro d
    constructor
    · rintro ⟨s, hsmem, husb, rfl⟩
      rcases List.mem_filter.1 hsmem with ⟨_, hpred⟩
      have hpred2 : s.info.sourceType = .x11Screen ∨ s.info.device ∈ devices := by
        simpa using hpred
      rcases hpred2 with hscr | hmem
      · rw [husb] at hscr
        exact absurd hscr (by simp)
      · exact hmem
    · intro hd
      obtain ⟨s, hs1, hdeveq⟩ := h3 d hd (hdev d hd)
      have husb : s.info.sourceType = .usbCamera := by
        rcases h2 s hs1 with hmem | ⟨hu, _⟩
        · cases hty : s.info.sourceType with
          | usbCamera => rfl
          | x11Screen =>
            have hnot := hscreen s hmem hty
            rw [hdeveq] at hnot
            exact absurd hd hnot
        · exact hu
      refine ⟨s, ?_, husb, hdeveq⟩
      exact List.mem_filter.2 ⟨hs1, by simp [hdeveq, hd]⟩
  · rw [List.filter_filter, ← h4]
    apply List.filter_congr
    intro s _
    by_cases hscr : s.info.sourceType = .x11Screen <;> simp [hscr]

/-- An injective id generator for the concrete witness. -/
def discoveryWitnessID (n : Nat) : String := String.mk (List.replicate n 'x')

lemma discoveryWitnessID_inj : ∀ m n, discoveryWitnessID m = discoveryWitnessID n → m = n := by
  intro m n h
  have h2 : List.replicate m 'x' = List.replicate n 'x' := congrArg String.data h
  have h3 := congrArg List.length h2
  simpa using h3

lemma camera1_ne_discoveryWitnessID : ∀ n : Nat, ("camera_1" : String) ≠ discoveryWitnessID n := by
  intro n heq
  have h3 := congrArg String.length heq
  have h4 : n = 8 := by simpa [discoveryWitnessID, String.length] using h3.symm
  subst h4
  exact absurd heq (by decide)

/-- Witness for C5: starting from the registry holding only the screen
source, reconciling over device set `["/dev/video0"]` yields a registry
with a USB source for `/dev/video0` and the screen source preserved. -/
theorem performDiscovery_reconciles_witness :
    (∃ s ∈ (performDiscovery discoveryWitnessID 0 ["/dev/video0"] [sampleScreenSource]).1,
      s.info.sourceType = .usbCamera ∧ s.info.device = "/dev/video0") ∧
    ((performDiscovery discoveryWitnessID 0 ["/dev/video0"] [sampleScreenSource]).1.filter
        (fun s => s.info.sourceType = .x11Screen) =
      [sampleScreenSource].filter (fun s => s.info.sourceType = .x11Screen)) := by
  have h := performDiscovery_reconciles discoveryWitnessID 0 ["/dev/video0"]
    [sampleScreenSource] discoveryWitnessID_inj
    (by
      intro n _ s hs
      rw [List.mem_singleton] at hs
      subst hs
      exact camera1_ne_discoveryWitnessID n)
    (by simp)
    (by decide)
    (by decide)
  exact ⟨(h.1 "/dev/video0").2 (by decide), h.2⟩

end Camera

/-! ## Mosaic layout (`FrameComposer.calculateLayout`, `timelapse/composer.go`)

The only floating-point step of the composer is
`cols = int(float64(frameCount)*0.6) + 1`.  It is modelled exactly:
`k06 / 2^53` is the binary64 value of the literal `0.6`, `fl64` rounds
an integer to the nearest binary64 (ties to even), and the product is
rounded the same way on the grid of its binade, determined by a
fuel-driven base-2 logarithm (`2^256` exceeds every reachable input,
so the fuel never runs out). -/

/-- Base-2 logarithm with explicit fuel (the fuel only bounds the
recursion; `log2f fuel n` is `⌊log₂ n⌋` whenever `n < 2 ^ fuel`). -/
def log2f : Nat → Nat → Nat
  | 0, _ => 0
  | fuel + 1, n => if n < 2 then 0 else log2f fuel (n / 2) + 1

/-- Base-2 logarithm on the inputs reachable here (below `2^256`). -/
def blog2 (n : Nat) : Nat := log2f 256 n

/-- Round `a / p` to the nearest integer, ties to even (the IEEE-754
rounding of a scaled significand). -/
def rne (a p : Nat) : Nat :=
  let q := a / p
  let r := a % p
  if 2 * r < p then q
  else if p < 2 * r then q + 1
  else if q % 2 = 0 then q else q + 1

/-- The value of `float64(n)` for a natural number `n`: exact below
`2^53`, otherwise rounded to the grid of its binade. -/
def fl64 (n : Nat) : Nat :=
  if n < 2 ^ 53 then n
  else
    let s := blog2 n - 52
    rne n (2 ^ s) * 2 ^ s

/-- Numerator of the binary64 value of the literal `0.6` over `2^53`
(`0.6` is not representable; the stored value is `k06 / 2^53`). -/
def k06 : Nat := 5404319552844595

/-- The value of `int(float64(n) * 0.6)` in Go: the exact product
`fl64 n * 0.6₆₄` is rounded to nearest-even on the grid of its binade
and then truncated. -/
def floatMul06floor (n : Nat) : Nat :=
  let a := fl64 n * k06
  let s := blog2 a - 52
  rne a (2 ^ s) * 2 ^ s / 2 ^ 53

lemma log2f_spec : ∀ fuel n : ℕ, 0 < n → n < 2 ^ fuel →
    2 ^ log2f fuel n ≤ n ∧ n < 2 ^ (log2f fuel n + 1) := by
  intro fuel
  induction fuel with
  | zero =>
    intro n hn1 hn2
    simp only [pow_zero] at hn2
    omega
  | succ fuel ih =>
    intro n hn1 hn2
    rw [show log2f (fuel + 1) n = if n < 2 then 0 else log2f fuel (n / 2) + 1 from rfl]
    by_cases hn : n < 2
    · rw [if_pos hn]
      simp only [pow_zero, pow_one]
      omega
    · rw [if_neg hn]
      have hp2 : (2:ℕ) ^ (fuel + 1) = 2 * 2 ^ fuel := by ring
      have hd1 : 0 < n / 2 := by omega
      have hd2 : n / 2 < 2 ^ fuel := by omega
      obtain ⟨ha, hb⟩ := ih (n / 2) hd1 hd2
      have e1 : (2:ℕ) ^ (log2f fuel (n / 2) + 1) = 2 * 2 ^ log2f fuel (n / 2) := by ring
      have e2 : (2:ℕ) ^ (log2f fuel (n / 2) + 1 + 1) =
          2 * 2 ^ (log2f fuel (n / 2) + 1) := by ring
      constructor
      · rw [e1]; omega
      · rw [e2]; omega

lemma rne_near (a p : ℕ) (hp : 0 < p) :
    2 * (rne a p * p) ≤ 2 * a + p ∧ 2 * a ≤ 2 * (rne a p * p) + p := by
  have hdm := Nat.div_add_mod a p
  have hr : a % p < p := Nat.mod_lt _ hp
  have e1 : (a / p + 1) * p = a / p * p + p := by ring
  have e2 : a / p * p = p * (a / p) := by ring
  unfold rne
  dsimp only
  split_ifs <;> omega

lemma rne_exact_above (p u t : ℕ) (hp : 0 < p) (ht : 0 < t) (ht2 : 2 * t < p)
    (hu : 0 < u) : rne (p * u - t) p * p = p * u := by
  obtain ⟨v, rfl⟩ : ∃ v, u = v + 1 := ⟨u - 1, by omega⟩
  have hpv : p * (v + 1) = p * v + p := by ring
  have ha : p * (v + 1) - t = (p - t) + p * v := by omega
  rw [ha]
  have hq : ((p - t) + p * v) / p = v := by
    rw [Nat.add_mul_div_left _ _ hp, Nat.div_eq_of_lt (by omega)]
    omega
  have hr : ((p - t) + p * v) % p = p - t := by
    rw [Nat.add_mul_mod_self_left]
    exact Nat.mod_eq_of_lt (by omega)
  unfold rne
  dsimp only
  rw [hq, hr, if_neg (by omega), if_pos (by omega)]
  ring

lemma fl64_small (n : ℕ) (h : n < 2 ^ 53) : fl64 n = n := by
  unfold fl64
  rw [if_pos h]

/-- On every frame count a 64-bit program can reach (`n ≤ 2^51`), the
floating-point `int(float64(n)*0.6)` agrees with the exact `⌊0.6·n⌋`. -/
lemma floatMul06floor_eq (n : ℕ) (h1 : 1 ≤ n) (h2 : n ≤ 2 ^ 51) :
    floatMul06floor n = 3 * n / 5 := by
  have hp51 : (2:ℕ) ^ 51 = 2251799813685248 := by norm_num
  have hp53 : (2:ℕ) ^ 53 = 9007199254740992 := by norm_num
  have h2n : n ≤ 2251799813685248 := by omega
  have hn53 : n < 2 ^ 53 := by omega
  have hunf : floatMul06floor n =
      rne (5404319552844595 * n) (2 ^ (blog2 (5404319552844595 * n) - 52)) *
        2 ^ (blog2 (5404319552844595 * n) - 52) / 2 ^ 53 := by
    unfold floatMul06floor
    rw [fl64_small n hn53, show n * k06 = 5404319552844595 * n from by unfold k06; ring]
  rw [hunf]
  obtain ⟨hel, heh⟩ := log2f_spec 256 (5404319552844595 * n) (by positivity)
    (by
      have : (2:ℕ) ^ 256 = 2 ^ 256 := rfl
      have hb : (5404319552844595:ℕ) * n ≤ 5404319552844595 * 2251799813685248 :=
        Nat.mul_le_mul_left _ h2n
      have hc : (5404319552844595:ℕ) * 2251799813685248 < 2 ^ 256 := by norm_num
      omega)
  have hel2 : 2 ^ blog2 (5404319552844595 * n) ≤ 5404319552844595 * n := hel
  have heh2 : 5404319552844595 * n < 2 ^ (blog2 (5404319552844595 * n) + 1) := heh
  have he_lo : 52 ≤ blog2 (5404319552844595 * n) := by
    by_contra hcon
    push_neg at hcon
    have hle : (2:ℕ) ^ (blog2 (5404319552844595 * n) + 1) ≤ 2 ^ 52 :=
      Nat.pow_le_pow_right (by norm_num) (by omega)
    have h52 : (2:ℕ) ^ 52 = 4503599627370496 := by norm_num
    omega
  obtain ⟨s, hs⟩ : ∃ s, blog2 (5404319552844595 * n) = s + 52 :=
    ⟨blog2 (5404319552844595 * n) - 52, by omega⟩
  rw [hs] at hel2 heh2 ⊢
  simp only [Nat.add_sub_cancel]
  have hs_hi : s ≤ 52 := by
    by_contra hcon
    push_neg at hcon
    have h105 : (2:ℕ) ^ 105 ≤ 2 ^ (s + 52) :=
      Nat.pow_le_pow_right (by norm_num) (by omega)
    have h105v : (2:ℕ) ^ 105 = 40564819207303340847894502572032 := by norm_num
    have hb : (5404319552844595:ℕ) * n ≤ 5404319552844595 * 2251799813685248 :=
      Nat.mul_le_mul_left _ h2n
    omega
  have hPlow : 2 ^ s * 4503599627370496 ≤ 5404319552844595 * n := by
    rw [pow_add, show (2:ℕ) ^ 52 = 4503599627370496 from by norm_num] at hel2
    exact hel2
  have hPhigh : 5404319552844595 * n < 2 ^ s * 9007199254740992 := by
    have he : (2:ℕ) ^ (s + 52 + 1) = 2 ^ s * 9007199254740992 := by
      rw [show s + 52 + 1 = s + 53 from by omega, pow_add, hp53]
    rw [he] at heh2
    exact heh2
  obtain ⟨hA, hB⟩ := rne_near (5404319552844595 * n) (2 ^ s) (by positivity)
  rw [hp53]
  by_cases hmod : n % 5 = 0
  · have ht : 0 < n / 5 := by omega
    have hPu : 2 ^ s * (3 * (n / 5) * 2 ^ (53 - s)) = 3 * (n / 5) * 9007199254740992 := by
      have h53 : (2:ℕ) ^ s * 2 ^ (53 - s) = 9007199254740992 := by
        rw [← pow_add, show s + (53 - s) = 53 from by omega]
        norm_num
      calc 2 ^ s * (3 * (n / 5) * 2 ^ (53 - s))
          = (2 ^ s * 2 ^ (53 - s)) * (3 * (n / 5)) := by ring
        _ = 3 * (n / 5) * 9007199254740992 := by rw [h53]; ring
    have ht2 : 2 * (n / 5) < 2 ^ s := by omega
    have ha2 : 5404319552844595 * n = 2 ^ s * (3 * (n / 5) * 2 ^ (53 - s)) - n / 5 := by
      rw [hPu]
      omega
    have hpp : 0 < 2 ^ s := pow_pos (by norm_num) s
    have hup : 0 < 3 * (n / 5) * 2 ^ (53 - s) :=
      Nat.mul_pos (by omega) (pow_pos (by norm_num) _)
    have hre : rne (5404319552844595 * n) (2 ^ s) * 2 ^ s =
        2 ^ s * (3 * (n / 5) * 2 ^ (53 - s)) := by
      conv_lhs => rw [ha2]
      exact rne_exact_above _ _ _ hpp ht ht2 hup
    rw [hre, hPu]
    omega
  · obtain ⟨j, f, hjf, hf1, hf4⟩ : ∃ j f, 3 * n = 5 * j + f ∧ 1 ≤ f ∧ f ≤ 4 :=
      ⟨3 * n / 5, 3 * n % 5, by omega, by omega, by omega⟩
    have hgoalj : 3 * n / 5 = j := by omega
    rw [hgoalj]
    have hg : 5 * 2 ^ s < 6 * n := by
      by_contra hcon
      push_neg at hcon
      omega
    apply Nat.div_eq_of_lt_le
    · omega
    · omega

namespace Timelapse

/-- Model of `timelapse.LayoutInfo`. -/
structure LayoutInfo where
  cols : Nat
  rows : Nat
  cellWidth : Nat
  cellHeight : Nat
deriving DecidableEq

/-- Model of `timelapse.Position`. -/
structure FramePosition where
  x : Nat
  y : Nat
  width : Nat
  height : Nat
deriving DecidableEq

/-- Model of `FrameComposer.calculateLayout` (the `switch` is the
if-chain; the default branch is the floating-point column count). -/
def calculateLayout (outputWidth outputHeight frameCount : Nat) : LayoutInfo :=
  let cr : Nat × Nat :=
    if frameCount = 1 then (1, 1)
    else if frameCount = 2 then (2, 1)
    else if frameCount = 3 then (2, 2)
    else if frameCount = 4 then (2, 2)
    else
      let cols := floatMul06floor frameCount + 1
      (cols, (frameCount + cols - 1) / cols)
  { cols := cr.1, rows := cr.2,
    cellWidth := outputWidth / cr.1, cellHeight := outputHeight / cr.2 }

/-- Model of `FrameComposer.calculatePosition`. -/
def calculatePosition (index : Nat) (layout : LayoutInfo) : FramePosition :=
  { x := index % layout.cols * layout.cellWidth,
    y := index / layout.cols * layout.cellHeight,
    width := layout.cellWidth, height := layout.cellHeight }

lemma calculateLayout_default (W H n : Nat) (h : 5 ≤ n) :
    calculateLayout W H n =
      { cols := floatMul06floor n + 1,
        rows := (n + (floatMul06floor n + 1) - 1) / (floatMul06floor n + 1),
        cellWidth := W / (floatMul06floor n + 1),
        cellHeight := H / ((n + (floatMul06floor n + 1) - 1) / (floatMul06floor n + 1)) } := by
  unfold calculateLayout
  dsimp only
  rw [if_neg (by omega), if_neg (by omega), if_neg (by omega), if_neg (by omega)]

set_option maxRecDepth 16384 in
/-- C7 counterexample: at frame count `2^54 + 2` the floating-point
column computation rounds below the exact `⌊0.6·n⌋`, so the layout does
not satisfy `cols = ⌊0.6·n⌋ + 1` for every `n ≥ 1` (`float64(n)` rounds
to `2^54`, whose product with the stored `0.6` is exactly
`10808639105689190`, while `⌊0.6·n⌋ = 10808639105689191`). -/
theorem calculateLayout_large_deviates :
    (calculateLayout 1920 1080 18014398509481986).cols ≠
      3 * 18014398509481986 / 5 + 1 := by
  decide

/-- C7 amended: for every snapshot count `1 ≤ n ≤ 2^51` (every count a
real composition can reach), the layout is `(1,1)`, `(2,1)`, `(2,2)`,
`(2,2)` for `n = 1, 2, 3, 4`, and otherwise `cols = ⌊0.6·n⌋ + 1` with
`rows = ⌈n / cols⌉`; cells are `(W / cols, H / rows)` and index `i` is
placed at column `i % cols`, row `i / cols`. -/
theorem calculateLayout_spec (W H n : Nat) (hn1 : 1 ≤ n) (hn2 : n ≤ 2 ^ 51) :
    (n = 1 → (calculateLayout W H n).cols = 1 ∧ (calculateLayout W H n).rows = 1) ∧
    (n = 2 → (calculateLayout W H n).cols = 2 ∧ (calculateLayout W H n).rows = 1) ∧
    (n = 3 ∨ n = 4 →
      (calculateLayout W H n).cols = 2 ∧ (calculateLayout W H n).rows = 2) ∧
    (5 ≤ n →
      (calculateLayout W H n).cols = 3 * n / 5 + 1 ∧
      (calculateLayout W H n).rows =
        (n + (calculateLayout W H n).cols - 1) / (calculateLayout W H n).cols ∧
      ((calculateLayout W H n).rows - 1) * (calculateLayout W H n).cols < n ∧
      n ≤ (calculateLayout W H n).rows * (calculateLayout W H n).cols) ∧
    (calculateLayout W H n).cellWidth = W / (calculateLayout W H n).cols ∧
    (calculateLayout W H n).cellHeight = H / (calculateLayout W H n).rows ∧
    (∀ i, calculatePosition i (calculateLayout W H n) =
      { x := i % (calculateLayout W H n).cols * (calculateLayout W H n).cellWidth,
        y := i / (calculateLayout W H n).cols * (calculateLayout W H n).cellHeight,
        width := (calculateLayout W H n).cellWidth,
        height := (calculateLayout W H n).cellHeight }) := by
  refine ⟨?_, ?_, ?_, ?_, ?_, ?_, fun i => rfl⟩
  · rintro rfl
    exact ⟨rfl, rfl⟩
  · rintro rfl
    exact ⟨rfl, rfl⟩
  · rintro (rfl | rfl)
    · exact ⟨rfl, rfl⟩
    · exact ⟨rfl, rfl⟩
  · intro h5
    rw [calculateLayout_default W H n h5]
    dsimp only
    rw [floatMul06floor_eq n hn1 hn2]
    have hc : 0 < 3 * n / 5 + 1 := by omega
    have hkey : ∀ c r : Nat, 0 < c → r = (n + c - 1) / c →
        (r - 1) * c < n ∧ n ≤ r * c := by
      intro c r hcpos hr
      have hdm := Nat.div_add_mod (n + c - 1) c
      have hml : (n + c - 1) % c < c := Nat.mod_lt _ hcpos
      have e1 : (r - 1) * c = r * c - c := by
        rcases r with _ | k
        · simp
        · have h1 : (k + 1) * c = k * c + c := by ring
          have h2 : (k + 1 - 1) * c = k * c := by simp
          omega
      have e3 : c * ((n + c - 1) / c) = (n + c - 1) / c * c := by ring
      subst hr
      omega
    obtain ⟨hb1, hb2⟩ := hkey (3 * n / 5 + 1) _ hc rfl
    exact ⟨rfl, rfl, hb1, hb2⟩
  · rfl
  · rfl

/-- Witness for C7 (amended) at the spec's own boundary example
`n = 5`: four columns and two rows. -/
theorem calculateLayout_spec_witness :
    (calculateLayout 1920 1080 5).cols = 4 ∧ (calculateLayout 1920 1080 5).rows = 2 := by
  obtain ⟨-, -, -, h5, -⟩ := calculateLayout_spec 1920 1080 5 (by norm_num) (by norm_num)
  obtain ⟨hc, hr, -⟩ := h5 (by norm_num)
  refine ⟨by rw [hc], ?_⟩
  rw [hr, hc]

end Timelapse

end Senrigan
